import Mathlib

/-!
# Checkout page: selection, confirmation and result modal; clipboard copy

Shallow embedding of `src/script.js`.

* The page state read and written by `Utils`, `PaymentManager`, `ModalManager`
  and `ConfirmationManager` is one record, `World`: the two fields of
  `AppState`, the three element handles of `Elements`, and `document.body`.
* `ConfirmationManager.processConfirmation` is an `async` function with one
  `await`.  It is embedded as two atomic steps, the part up to the `await`
  (`processConfirmation`) and the continuation that runs when the awaited
  promise settles (`processConfirmationResume`); other callbacks may run in
  between.  `World.pendingWaits` counts the awaits that have not settled.
* Timers that only revert cosmetic feedback (`setTimeout` in `showNotification`,
  `showCopySuccess`, `selectPaymentMethod`) are outside the model.
-/

namespace Checkout

/-! ## Data model -/

/-- One `.payment-option` region of the page, an entry of `Elements.paymentOptions`.
`method` is `dataset.method`; `hasHeader` says whether
`querySelector('.payment-header')` finds a header in it. -/
structure PaymentOption where
  classList : List String
  method : String
  hasHeader : Bool
deriving DecidableEq, Repr

/-- The `#confirmBtn` element: the properties written by `updateConfirmButton`. -/
structure ConfirmButton where
  disabled : Bool
  innerHTML : String
  background : String
deriving DecidableEq, Repr

/-- The `#paymentModal` element: `style.display`, and whether `focus()` was called on it. -/
structure Modal where
  display : String
  focusRequested : Bool
deriving DecidableEq, Repr

/-- What a child element of `document.body` is. -/
inductive NodeKind where
  | textarea (value : String)
  | notice (message : String) (type : String)
  | other
deriving DecidableEq, Repr

/-- A DOM element; `id` stands for its object identity. -/
structure DomNode where
  id : Nat
  kind : NodeKind
deriving DecidableEq, Repr

/-- The `document.body` element: its children, `style.overflow`, and the identity the next
`document.createElement` call hands out. -/
structure DocBody where
  nextId : Nat
  children : List DomNode
  overflow : String
deriving DecidableEq, Repr

/-- The page state: `AppState`, `Elements` (after a successful `Elements.init`),
`document.body`, and the number of awaits of `processConfirmation` still pending. -/
structure World where
  selectedPaymentMethod : Option String
  isProcessing : Bool
  paymentOptions : List PaymentOption
  confirmButton : ConfirmButton
  modal : Modal
  body : DocBody
  pendingWaits : Nat
deriving DecidableEq, Repr

/-! ## DOM primitives -/

/-- The method `DOMTokenList.remove(token)`. -/
def classListRemove (l : List String) (token : String) : List String :=
  l.filter (fun c => c != token)

/-- The method `DOMTokenList.add(token)`: the list is an ordered set. -/
def classListAdd (l : List String) (token : String) : List String :=
  if l.contains token then l else l ++ [token]

/-- The method `DOMTokenList.contains(token)`. -/
def classListContains (l : List String) (token : String) : Bool :=
  l.contains token

/-- The call `document.createElement`: a new element, in no document yet. -/
def createElement (b : DocBody) (kind : NodeKind) : DomNode × DocBody :=
  ({ id := b.nextId, kind := kind }, { b with nextId := b.nextId + 1 })

/-- The call `document.body.appendChild(n)`: `n` becomes the last child (a node that is
already a child is moved). -/
def appendChild (b : DocBody) (n : DomNode) : DocBody :=
  { b with children := b.children.erase n ++ [n] }

/-- The call `document.body.removeChild(n)`. -/
def removeChild (b : DocBody) (n : DomNode) : DocBody :=
  { b with children := b.children.erase n }

/-- The notification elements currently in the body, as (message, type) pairs. -/
def notices (b : DocBody) : List (String × String) :=
  b.children.filterMap (fun n =>
    match n.kind with
    | .notice m t => some (m, t)
    | _ => none)

/-! ## Utils (state machine part) -/

namespace Utils

/-- Body of `Utils.showNotification(message, type)`: a new element carrying the message is
appended to the body. -/
def showNotification (message : String) (type : String) (b : DocBody) : DocBody :=
  let (n, b1) := createElement b (.notice message type)
  appendChild b1 n

/-- Source: `return AppState.selectedPaymentMethod !== null`. -/
def validatePaymentSelection (w : World) : Bool :=
  w.selectedPaymentMethod.isSome

/-- The markup written for the enabled control. -/
def confirmHTML : String :=
  "\n                <i class=\"fas fa-check-circle\"></i>\n                Confirmar Saque\n            "

/-- The markup written while processing. -/
def processingHTML : String :=
  "\n                <i class=\"fas fa-spinner fa-spin\"></i>\n                Processando...\n            "

/-- The markup written when no method is selected. -/
def selectMethodHTML : String :=
  "\n                <i class=\"fas fa-lock\"></i>\n                Selecione um método de pagamento\n            "

/-- The background written for the enabled control. -/
def confirmBackground : String :=
  "linear-gradient(135deg, #28a745 0%, #20c997 100%)"

/-- Source: `Utils.updateConfirmButton()`. -/
def updateConfirmButton (w : World) : World :=
  let button := w.confirmButton
  if validatePaymentSelection w && !w.isProcessing then
    { w with confirmButton :=
        { button with disabled := false, innerHTML := confirmHTML,
                      background := confirmBackground } }
  else if w.isProcessing then
    { w with confirmButton := { button with disabled := true, innerHTML := processingHTML } }
  else
    { w with confirmButton := { button with disabled := true, innerHTML := selectMethodHTML } }

end Utils

/-- The three labels of the confirm control named by the specification. -/
inductive ControlLabel where
  | selectMethod
  | confirm
  | processing
deriving DecidableEq, Repr

/-- The markup that shows a label. -/
def ControlLabel.html : ControlLabel → String
  | .selectMethod => Utils.selectMethodHTML
  | .confirm => Utils.confirmHTML
  | .processing => Utils.processingHTML

/-- The confirm-control table as the specification words it: the (disabled, label) pair for
(method present, isProcessing). -/
def confirmControlTable (methodPresent : Bool) (isProcessing : Bool) : Bool × ControlLabel :=
  match methodPresent, isProcessing with
  | false, false => (true, .selectMethod)
  | true, false => (false, .confirm)
  | _, true => (true, .processing)

/-! ## PaymentManager -/

namespace PaymentManager

/-- Source: `PaymentManager.selectPaymentMethod(methodElement)`, called on the element
`Elements.paymentOptions[i]`.  When there is no such element the argument is `undefined`:
the `forEach` has run and `methodElement.classList` raises before anything else changes. -/
def selectPaymentMethod (i : Nat) (w : World) : World :=
  let options := w.paymentOptions.map
    (fun option => { option with classList := classListRemove option.classList "active" })
  match options[i]? with
  | none => { w with paymentOptions := options }
  | some methodElement =>
    let marked := { methodElement with classList := classListAdd methodElement.classList "active" }
    Utils.updateConfirmButton
      { w with paymentOptions := options.set i marked,
               selectedPaymentMethod := some methodElement.method }

end PaymentManager

/-- Indices of the options that carry the `active` class. -/
def activeIndices (w : World) : List Nat :=
  (List.range w.paymentOptions.length).filter (fun j =>
    match w.paymentOptions[j]? with
    | some option => classListContains option.classList "active"
    | none => false)

/-- A sequence of `selectPaymentMethod` calls, first to last. -/
def selectAll (is : List Nat) (w : World) : World :=
  is.foldl (fun acc i => PaymentManager.selectPaymentMethod i acc) w

/-! ## ModalManager -/

namespace ModalManager

/-- Source: `ModalManager.show()`. -/
def «show» (w : World) : World :=
  { w with modal := { w.modal with display := "block", focusRequested := true },
           body := { w.body with overflow := "hidden" } }

/-- Source: `ModalManager.hide()`. -/
def hide (w : World) : World :=
  Utils.updateConfirmButton
    { w with modal := { w.modal with display := "none" },
             body := { w.body with overflow := "auto" },
             isProcessing := false }

end ModalManager

/-! ## ConfirmationManager -/

/-- How the guarded block of `processConfirmation` ends once the awaited promise settles.
In the source the awaited `simulateProcessing()` is a stand-in for a real request; the
third-party `fbq` called by `Analytics.trackModalShown` is not part of the repository.
Both are taken as inputs. -/
inductive GuardedOutcome where
  /-- The wait resolved, `ModalManager.show()` and the tracking call returned. -/
  | completed
  /-- The awaited promise rejected. -/
  | waitRejected
  /-- The wait resolved and the modal was shown, then the tracking call raised. -/
  | trackingThrew
deriving DecidableEq, Repr

namespace ConfirmationManager

/-- Message of the notification for a confirm request without a selection. -/
def noSelectionMessage : String := "Selecione um método de pagamento primeiro."

/-- Message of the notification for a failed request. -/
def failureMessage : String := "Erro ao processar solicitação. Tente novamente."

/-- Source: `ConfirmationManager.processConfirmation()` from its first line to the
`await`: the validation, `isProcessing = true`, the button update and the start of the
asynchronous wait. -/
def processConfirmation (w : World) : World :=
  if !Utils.validatePaymentSelection w then
    { w with body := Utils.showNotification noSelectionMessage "error" w.body }
  else
    let w1 := Utils.updateConfirmButton { w with isProcessing := true }
    { w1 with pendingWaits := w1.pendingWaits + 1 }

/-- The `catch` block of `processConfirmation`. -/
def catchBlock (w : World) : World :=
  Utils.updateConfirmButton
    { w with body := Utils.showNotification failureMessage "error" w.body,
             isProcessing := false }

/-- Source: the rest of `processConfirmation()`, run when the awaited promise settles. -/
def processConfirmationResume (o : GuardedOutcome) (w : World) : World :=
  let w0 := { w with pendingWaits := w.pendingWaits - 1 }
  match o with
  | .completed => ModalManager.show w0
  | .waitRejected => catchBlock w0
  | .trackingThrew => catchBlock (ModalManager.show w0)

/-- Source: the click listener that `initConfirmationEvents` registers on the confirm
control, `e.preventDefault()` and `this.processConfirmation()`, up to the `await`.  The
listener itself looks at neither `isProcessing` nor the state of the control. -/
def clickConfirm (w : World) : World :=
  processConfirmation w

end ConfirmationManager

/-! ## The page as a transition system -/

/-- The callbacks that change the page state. -/
inductive Event where
  | selectPaymentMethod (i : Nat)
  | processConfirmation
  | clickConfirm
  | waitSettles (o : GuardedOutcome)
  | hide
deriving DecidableEq, Repr

/-- One callback, run to completion.  A settle event with no wait pending has no
continuation to run. -/
def step (e : Event) (w : World) : World :=
  match e with
  | .selectPaymentMethod i => PaymentManager.selectPaymentMethod i w
  | .processConfirmation => ConfirmationManager.processConfirmation w
  | .clickConfirm => ConfirmationManager.clickConfirm w
  | .waitSettles o =>
    if w.pendingWaits = 0 then w else ConfirmationManager.processConfirmationResume o w
  | .hide => ModalManager.hide w

/-- A sequence of callbacks, first to last. -/
def run (evs : List Event) (w : World) : World :=
  evs.foldl (fun acc e => step e acc) w

/-- What `Elements.init()` finds in the document when `App.start` runs, and whether the
third-party tracking call made at the end of `start` raises. -/
structure Document where
  paymentOptions : List PaymentOption
  confirmBtn : Option ConfirmButton
  paymentModal : Option Modal
  body : DocBody
  pageLoadedTrackingThrows : Bool
deriving DecidableEq, Repr

/-- The page after an `App.start` that did not get to initialise the managers: the two
fields of `AppState`, what `Elements` holds (an element the document lacks is `none`),
`document.body`, and the number of payment options whose header has its click listener.
No listener is on the confirm control or on the modal. -/
structure AbortedPage where
  selectedPaymentMethod : Option String
  isProcessing : Bool
  paymentOptions : List PaymentOption
  confirmButton : Option ConfirmButton
  modal : Option Modal
  body : DocBody
  listeningOptions : Nat
deriving DecidableEq, Repr

namespace App

/-- Message of the notification for a failed start. -/
def startFailureMessage : String :=
  "Erro ao carregar a página. Recarregue e tente novamente."

/-- The page as `start` leaves it when its `try` block raises before the managers are all
initialised: `AppState` untouched, the elements as `Elements.init()` found them (the confirm
control in the state the markup gave it, since `Utils.updateConfirmButton()` was not
reached), the notification of the `catch` block in the body, and `listening` options whose
header already got its click listener. -/
def abort (doc : Document) (listening : Nat) : AbortedPage :=
  { selectedPaymentMethod := none, isProcessing := false,
    paymentOptions := doc.paymentOptions, confirmButton := doc.confirmBtn,
    modal := doc.paymentModal,
    body := Utils.showNotification startFailureMessage "error" doc.body,
    listeningOptions := listening }

/-- Source: `App.start()`.  The result is an error, carrying the page left behind, when
the managers were not all initialised: an essential element is missing (the `throw` of
`start`), or an option has no header for `initPaymentEvents` to listen on (the options
before it have their listener by then).  Otherwise it is the page state after `start`,
with `AppState` at its initial value and the confirm control updated. -/
def start (doc : Document) : Except AbortedPage World :=
  match doc.confirmBtn, doc.paymentModal with
  | some button, some modal =>
    if doc.paymentOptions.length = 0 then
      .error (abort doc 0)
    else if doc.paymentOptions.all (fun option => option.hasHeader) then
      let w := Utils.updateConfirmButton
        { selectedPaymentMethod := none, isProcessing := false,
          paymentOptions := doc.paymentOptions, confirmButton := button, modal := modal,
          body := doc.body, pendingWaits := 0 }
      if doc.pageLoadedTrackingThrows then
        .ok { w with body := Utils.showNotification startFailureMessage "error" w.body }
      else
        .ok w
    else
      .error (abort doc (doc.paymentOptions.takeWhile (fun option => option.hasHeader)).length)
  | _, _ => .error (abort doc 0)

end App

/-- The states reachable, through any sequence of the callbacks, after an `App.start`
that initialised the managers and the confirm control. -/
def Reachable (doc : Document) (w : World) : Prop :=
  ∃ w0 evs, App.start doc = .ok w0 ∧ w = run evs w0

/-! ## Clipboard copy -/

/-- The values a function of the page returns to its caller. -/
inductive JSValue where
  | undefined
  | boolean (b : Bool)
  | string (s : String)
deriving DecidableEq, Repr

/-- How a call ends. -/
inductive Completion where
  | returned (v : JSValue)
  | threw (error : String)
deriving DecidableEq, Repr

/-- The `.copy-btn` element next to a copyable value. -/
structure CopyButton where
  textContent : String
  classList : List String
deriving DecidableEq, Repr

/-- The element whose text is copied; `copyBtn` is what
`element.parentElement.querySelector('.copy-btn')` finds. -/
structure CopyTarget where
  textContent : String
  classList : List String
  copyBtn : Option CopyButton
deriving DecidableEq, Repr

/-- A call into the browser that puts text on the clipboard. -/
inductive PlatformCall where
  | writeText (text : String)
  | execCommandCopy (selection : String)
deriving DecidableEq, Repr

/-- How the promise of `navigator.clipboard.writeText` settles. -/
inductive WriteOutcome where
  | resolves
  | rejects
deriving DecidableEq, Repr

/-- How `document.execCommand('copy')` ends. -/
inductive ExecOutcome where
  | returns (ok : Bool)
  | throws
deriving DecidableEq, Repr

/-- The browser as the copy utility sees it: `navigator.clipboard` (absent, or present with
the way its write settles), `window.isSecureContext`, and the copy command. -/
structure Platform where
  clipboard : Option WriteOutcome
  isSecureContext : Bool
  execCommand : ExecOutcome
deriving DecidableEq, Repr

/-- The part of the page the copy utility works on: the body, the element that
`document.getElementById(elementId)` finds, and the clipboard calls made so far. -/
structure Page where
  body : DocBody
  target : Option CopyTarget
  calls : List PlatformCall
deriving DecidableEq, Repr

namespace Utils

/-- Text of the copy button while the success feedback shows. -/
def copiedText : String := "✓ Copiado"

/-- Message of the notification for a failed copy. -/
def copyErrorMessage : String := "Erro ao copiar. Tente selecionar e copiar manualmente."

/-- Source: `Utils.showCopySuccess(element)`.  It raises, before it changes anything, when
there is no copy button to write to. -/
def showCopySuccess (p : Page) : Except String Page :=
  match p.target with
  | none => .error "TypeError"
  | some element =>
    match element.copyBtn with
    | none => .error "TypeError"
    | some copyBtn =>
      let shown : CopyButton :=
        { textContent := copiedText,
          classList := classListAdd copyBtn.classList "copy-success" }
      let animated : CopyTarget :=
        { element with
            classList := classListAdd element.classList "success-animation",
            copyBtn := some shown }
      .ok { p with target := some animated }

/-- Source: `Utils.showCopyError()`. -/
def showCopyError (p : Page) : Page :=
  { p with body := showNotification copyErrorMessage "error" p.body }

/-- The temporary element `fallbackCopy` creates for `text` on body `b`. -/
def fallbackTextArea (text : String) (b : DocBody) : DomNode :=
  (createElement b (.textarea text)).1

/-- Source: `Utils.fallbackCopy(text, element)`. -/
def fallbackCopy (pf : Platform) (text : String) (p : Page) : Page × Completion :=
  let (textArea, b1) := createElement p.body (.textarea text)
  let p1 := { p with body := appendChild b1 textArea }
  -- try
  let p2 := { p1 with calls := p1.calls ++ [.execCommandCopy text] }
  let tried : Except String Page :=
    match pf.execCommand with
    | .throws => .error "execCommand"
    | .returns _ => showCopySuccess p2
  -- catch
  let p3 :=
    match tried with
    | .ok q => q
    | .error _ => showCopyError p2
  -- finally
  ({ p3 with body := removeChild p3.body textArea }, .returned .undefined)

/-- Source: `Utils.copyToClipboard(elementId)`, with the promise chain of the clipboard
write run to its end. -/
def copyToClipboard (pf : Platform) (p : Page) : Page × Completion :=
  match p.target with
  | none => (p, .threw "TypeError")
  | some element =>
    let text := element.textContent
    match pf.clipboard, pf.isSecureContext with
    | some settles, true =>
      let p1 := { p with calls := p.calls ++ [.writeText text] }
      match settles with
      | .resolves =>
        match showCopySuccess p1 with
        | .ok q => (q, .returned .undefined)
        | .error _ => ((fallbackCopy pf text p1).1, .returned .undefined)
      | .rejects => ((fallbackCopy pf text p1).1, .returned .undefined)
    | _, _ => ((fallbackCopy pf text p).1, .returned .undefined)

end Utils

/-- Whether the success feedback shows on the copy button. -/
def Page.successShown (p : Page) : Bool :=
  match p.target with
  | some element =>
    match element.copyBtn with
    | some copyBtn => copyBtn.textContent == Utils.copiedText
    | none => false
  | none => false

/-- Well-formed body: every child was handed out by an earlier `createElement`. -/
def DocBody.WellFormed (b : DocBody) : Prop :=
  ∀ n ∈ b.children, n.id < b.nextId

/-! ## Concrete pages -/

/-- A document with two payment options, the confirm control enabled in the markup, and
the modal hidden. -/
def sampleDocument : Document :=
  { paymentOptions :=
      [ { classList := ["payment-option"], method := "mpesa", hasHeader := true },
        { classList := ["payment-option", "active"], method := "emola", hasHeader := true } ],
    confirmBtn := some { disabled := false, innerHTML := "Confirmar", background := "" },
    paymentModal := some { display := "none", focusRequested := false },
    body := { nextId := 0, children := [], overflow := "auto" },
    pageLoadedTrackingThrows := false }

/-- The page state right after `App.start` on `sampleDocument`. -/
def sampleStart : World :=
  { selectedPaymentMethod := none, isProcessing := false,
    paymentOptions := sampleDocument.paymentOptions,
    confirmButton := { disabled := true, innerHTML := Utils.selectMethodHTML, background := "" },
    modal := { display := "none", focusRequested := false },
    body := { nextId := 0, children := [], overflow := "auto" },
    pendingWaits := 0 }

/-- The state after selecting the first option and confirming: one wait pending. -/
def sampleProcessing : World :=
  run [.selectPaymentMethod 0, .clickConfirm] sampleStart

/-- The confirm control as the markup of `sampleDocument` has it: enabled. -/
def sampleMarkupButton : ConfirmButton :=
  { disabled := false, innerHTML := "Confirmar", background := "" }

/-- The sample document without its modal element. -/
def sampleDocumentNoModal : Document :=
  { sampleDocument with paymentModal := none }

/-- The sample document with a second option that has no header. -/
def sampleDocumentNoHeader : Document :=
  { sampleDocument with paymentOptions :=
      [ { classList := ["payment-option"], method := "mpesa", hasHeader := true },
        { classList := ["payment-option"], method := "emola", hasHeader := false } ] }

/-- A copyable account number and its copy button. -/
def sampleTarget : CopyTarget :=
  { textContent := "ACC-12345", classList := [],
    copyBtn := some { textContent := "Copiar", classList := ["copy-btn"] } }

/-- A page that shows `sampleTarget`. -/
def samplePage : Page :=
  { body := { nextId := 3, children := [{ id := 1, kind := .other }], overflow := "auto" },
    target := some sampleTarget,
    calls := [] }

/-- A browser without the clipboard API whose copy command succeeds. -/
def legacyPlatform : Platform :=
  { clipboard := none, isSecureContext := false, execCommand := .returns true }

/-- A browser without the clipboard API whose copy command raises. -/
def brokenPlatform : Platform :=
  { clipboard := none, isSecureContext := false, execCommand := .throws }

/-! ## Invariants -/

/-- The confirm control is enabled exactly when a method is selected and no confirmation
is processing. -/
def ControlInv (w : World) : Prop :=
  w.confirmButton.disabled = false ↔
    (w.selectedPaymentMethod.isSome = true ∧ w.isProcessing = false)

/-- While `isProcessing` is true a method is selected and the confirm control is disabled
with the processing label. -/
def ProcessingInv (w : World) : Prop :=
  w.isProcessing = true →
    (w.selectedPaymentMethod.isSome = true ∧ w.confirmButton.disabled = true ∧
      w.confirmButton.innerHTML = Utils.processingHTML)

/-- The confirm control shows the processing state. -/
def ShowsProcessing (w : World) : Prop :=
  w.isProcessing = true ∧ w.confirmButton.disabled = true ∧
    w.confirmButton.innerHTML = Utils.processingHTML

instance (w : World) : Decidable (ControlInv w) := by
  unfold ControlInv
  infer_instance

instance (w : World) : Decidable (ProcessingInv w) := by
  unfold ProcessingInv
  infer_instance

instance (w : World) : Decidable (ShowsProcessing w) := by
  unfold ShowsProcessing
  infer_instance

instance (b : DocBody) : Decidable b.WellFormed := by
  unfold DocBody.WellFormed
  infer_instance

/-! ## Theorems -/

namespace Utils

theorem updateConfirmButton_selected (w : World) :
    (updateConfirmButton w).selectedPaymentMethod = w.selectedPaymentMethod := by
  unfold updateConfirmButton; split_ifs <;> rfl

theorem updateConfirmButton_isProcessing (w : World) :
    (updateConfirmButton w).isProcessing = w.isProcessing := by
  unfold updateConfirmButton; split_ifs <;> rfl

theorem updateConfirmButton_paymentOptions (w : World) :
    (updateConfirmButton w).paymentOptions = w.paymentOptions := by
  unfold updateConfirmButton; split_ifs <;> rfl

theorem updateConfirmButton_modal (w : World) :
    (updateConfirmButton w).modal = w.modal := by
  unfold updateConfirmButton; split_ifs <;> rfl

theorem updateConfirmButton_body (w : World) :
    (updateConfirmButton w).body = w.body := by
  unfold updateConfirmButton; split_ifs <;> rfl

theorem updateConfirmButton_pendingWaits (w : World) :
    (updateConfirmButton w).pendingWaits = w.pendingWaits := by
  unfold updateConfirmButton; split_ifs <;> rfl

theorem updateConfirmButton_disabled (w : World) :
    (updateConfirmButton w).confirmButton.disabled =
      (confirmControlTable w.selectedPaymentMethod.isSome w.isProcessing).1 := by
  unfold updateConfirmButton validatePaymentSelection confirmControlTable
  cases w.selectedPaymentMethod.isSome <;> cases w.isProcessing <;> simp

theorem updateConfirmButton_innerHTML (w : World) :
    (updateConfirmButton w).confirmButton.innerHTML =
      (confirmControlTable w.selectedPaymentMethod.isSome w.isProcessing).2.html := by
  unfold updateConfirmButton validatePaymentSelection confirmControlTable
  cases w.selectedPaymentMethod.isSome <;> cases w.isProcessing <;> simp [ControlLabel.html]

end Utils

theorem ControlLabel.html_injective : Function.Injective ControlLabel.html := by
  intro a b h
  cases a <;> cases b <;> first
    | rfl
    | (exfalso
       revert h
       simp [ControlLabel.html, Utils.selectMethodHTML, Utils.confirmHTML,
         Utils.processingHTML])

/-- C1: `Utils.updateConfirmButton` writes the disabled flag and the label of the confirm
control that the table gives for (method present, isProcessing): disabled with the select
label for (absent, false), enabled with the confirm label for (present, false), disabled
with the processing label when isProcessing is true.  The result is the same whatever the
control held before, and the three labels are distinct markup. -/
theorem updateConfirmButton_follows_table (w : World) (previous : ConfirmButton) :
    ((Utils.updateConfirmButton { w with confirmButton := previous }).confirmButton.disabled,
      (Utils.updateConfirmButton { w with confirmButton := previous }).confirmButton.innerHTML) =
      ((confirmControlTable w.selectedPaymentMethod.isSome w.isProcessing).1,
        (confirmControlTable w.selectedPaymentMethod.isSome w.isProcessing).2.html) ∧
    Function.Injective ControlLabel.html := by
  refine ⟨?_, ControlLabel.html_injective⟩
  rw [Utils.updateConfirmButton_disabled, Utils.updateConfirmButton_innerHTML]

/-! ### Selection -/

theorem classListRemove_not_contains (l : List String) (t : String) :
    classListContains (classListRemove l t) t = false := by
  simp [classListContains, classListRemove]

theorem classListAdd_contains (l : List String) (t : String) :
    classListContains (classListAdd l t) t = true := by
  unfold classListContains classListAdd
  split_ifs with h
  · exact h
  · simp

theorem range_filter_eq_singleton (n i : Nat) (p : Nat → Bool) (hi : i < n)
    (hp : ∀ j, j < n → (p j = true ↔ j = i)) :
    (List.range n).filter p = [i] := by
  have h1 : (List.range n).filter p = (List.range n).filter (fun j => j == i) := by
    apply List.filter_congr
    intro j hj
    have hj2 : j < n := List.mem_range.mp hj
    by_cases hji : j = i
    · simp [hji, (hp i hi).mpr rfl]
    · have : p j = false := by
        cases hpj : p j
        · rfl
        · exact absurd ((hp j hj2).mp hpj) hji
      simp [hji, this]
  rw [h1, List.filter_beq,
    List.count_eq_one_of_mem (List.nodup_range n) (List.mem_range.mpr hi)]
  rfl

namespace PaymentManager

theorem selectPaymentMethod_of_lt (i : Nat) (w : World) (hi : i < w.paymentOptions.length) :
    ∃ el, w.paymentOptions[i]? = some el ∧
      selectPaymentMethod i w = Utils.updateConfirmButton
        { w with
          paymentOptions := (w.paymentOptions.map (fun option =>
              { option with classList := classListRemove option.classList "active" })).set i
            { el with classList :=
                classListAdd (classListRemove el.classList "active") "active" },
          selectedPaymentMethod := some el.method } := by
  refine ⟨w.paymentOptions[i], List.getElem?_eq_getElem hi, ?_⟩
  unfold selectPaymentMethod
  simp [List.getElem?_eq_getElem hi]

theorem selectPaymentMethod_of_ge (i : Nat) (w : World) (hi : w.paymentOptions.length ≤ i) :
    selectPaymentMethod i w =
      { w with paymentOptions := w.paymentOptions.map (fun option =>
          { option with classList := classListRemove option.classList "active" }) } := by
  unfold selectPaymentMethod
  simp [List.getElem?_eq_none hi]

theorem selectPaymentMethod_length (i : Nat) (w : World) :
    (selectPaymentMethod i w).paymentOptions.length = w.paymentOptions.length := by
  rcases Nat.lt_or_ge i w.paymentOptions.length with hi | hi
  · obtain ⟨el, _, h⟩ := selectPaymentMethod_of_lt i w hi
    simp [h, Utils.updateConfirmButton_paymentOptions]
  · simp [selectPaymentMethod_of_ge i w hi]

theorem selectPaymentMethod_method_at (i j : Nat) (w : World) :
    ((selectPaymentMethod i w).paymentOptions[j]?).map PaymentOption.method =
      (w.paymentOptions[j]?).map PaymentOption.method := by
  rcases Nat.lt_or_ge i w.paymentOptions.length with hi | hi
  · obtain ⟨el, hel, h⟩ := selectPaymentMethod_of_lt i w hi
    rw [h, Utils.updateConfirmButton_paymentOptions]
    simp only [List.getElem?_set, List.length_map, List.getElem?_map]
    by_cases hij : i = j
    · subst hij
      simp [hi, hel]
    · simp only [hij, if_false]
      cases w.paymentOptions[j]? <;> simp
  · rw [selectPaymentMethod_of_ge i w hi]
    simp only [List.getElem?_map]
    cases w.paymentOptions[j]? <;> simp

theorem selectPaymentMethod_isProcessing (i : Nat) (w : World) :
    (selectPaymentMethod i w).isProcessing = w.isProcessing := by
  rcases Nat.lt_or_ge i w.paymentOptions.length with hi | hi
  · obtain ⟨el, _, h⟩ := selectPaymentMethod_of_lt i w hi
    simp [h, Utils.updateConfirmButton_isProcessing]
  · simp [selectPaymentMethod_of_ge i w hi]

theorem selectPaymentMethod_modal (i : Nat) (w : World) :
    (selectPaymentMethod i w).modal = w.modal := by
  rcases Nat.lt_or_ge i w.paymentOptions.length with hi | hi
  · obtain ⟨el, _, h⟩ := selectPaymentMethod_of_lt i w hi
    simp [h, Utils.updateConfirmButton_modal]
  · simp [selectPaymentMethod_of_ge i w hi]

theorem selectPaymentMethod_body (i : Nat) (w : World) :
    (selectPaymentMethod i w).body = w.body := by
  rcases Nat.lt_or_ge i w.paymentOptions.length with hi | hi
  · obtain ⟨el, _, h⟩ := selectPaymentMethod_of_lt i w hi
    simp [h, Utils.updateConfirmButton_body]
  · simp [selectPaymentMethod_of_ge i w hi]

theorem selectPaymentMethod_pendingWaits (i : Nat) (w : World) :
    (selectPaymentMethod i w).pendingWaits = w.pendingWaits := by
  rcases Nat.lt_or_ge i w.paymentOptions.length with hi | hi
  · obtain ⟨el, _, h⟩ := selectPaymentMethod_of_lt i w hi
    simp [h, Utils.updateConfirmButton_pendingWaits]
  · simp [selectPaymentMethod_of_ge i w hi]

theorem selectPaymentMethod_active (i : Nat) (w : World) (hi : i < w.paymentOptions.length) :
    activeIndices (selectPaymentMethod i w) = [i] := by
  unfold activeIndices
  rw [selectPaymentMethod_length]
  apply range_filter_eq_singleton _ _ _ hi
  intro j hj
  obtain ⟨el, hel, h⟩ := selectPaymentMethod_of_lt i w hi
  rw [h, Utils.updateConfirmButton_paymentOptions]
  simp only [List.getElem?_set, List.length_map, List.getElem?_map]
  by_cases hij : i = j
  · subst hij
    simp [hi, classListAdd_contains]
  · have hne : j ≠ i := fun e => hij e.symm
    simp only [hij, if_false]
    rw [List.getElem?_eq_getElem hj]
    simp [hne, classListRemove_not_contains]

theorem selectPaymentMethod_selected (i : Nat) (w : World) (hi : i < w.paymentOptions.length) :
    (selectPaymentMethod i w).selectedPaymentMethod =
      ((selectPaymentMethod i w).paymentOptions[i]?).map PaymentOption.method ∧
    ((selectPaymentMethod i w).selectedPaymentMethod).isSome = true := by
  rw [selectPaymentMethod_method_at]
  obtain ⟨el, hel, h⟩ := selectPaymentMethod_of_lt i w hi
  rw [h, Utils.updateConfirmButton_selected, hel]
  simp

end PaymentManager

theorem selectAll_concat (is : List Nat) (i : Nat) (w : World) :
    selectAll (is ++ [i]) w = PaymentManager.selectPaymentMethod i (selectAll is w) := by
  simp [selectAll, List.foldl_append]

theorem selectAll_length (is : List Nat) (w : World) :
    (selectAll is w).paymentOptions.length = w.paymentOptions.length := by
  induction is generalizing w with
  | nil => rfl
  | cons i is ih =>
    show (selectAll is (PaymentManager.selectPaymentMethod i w)).paymentOptions.length = _
    rw [ih, PaymentManager.selectPaymentMethod_length]

theorem selectAll_method_at (is : List Nat) (j : Nat) (w : World) :
    ((selectAll is w).paymentOptions[j]?).map PaymentOption.method =
      (w.paymentOptions[j]?).map PaymentOption.method := by
  induction is generalizing w with
  | nil => rfl
  | cons i is ih =>
    show ((selectAll is (PaymentManager.selectPaymentMethod i w)).paymentOptions[j]?).map _ = _
    rw [ih, PaymentManager.selectPaymentMethod_method_at]

theorem selectAll_isProcessing (is : List Nat) (w : World) :
    (selectAll is w).isProcessing = w.isProcessing := by
  induction is generalizing w with
  | nil => rfl
  | cons i is ih =>
    show (selectAll is (PaymentManager.selectPaymentMethod i w)).isProcessing = _
    rw [ih, PaymentManager.selectPaymentMethod_isProcessing]

theorem selectAll_modal (is : List Nat) (w : World) :
    (selectAll is w).modal = w.modal := by
  induction is generalizing w with
  | nil => rfl
  | cons i is ih =>
    show (selectAll is (PaymentManager.selectPaymentMethod i w)).modal = _
    rw [ih, PaymentManager.selectPaymentMethod_modal]

theorem selectAll_body (is : List Nat) (w : World) :
    (selectAll is w).body = w.body := by
  induction is generalizing w with
  | nil => rfl
  | cons i is ih =>
    show (selectAll is (PaymentManager.selectPaymentMethod i w)).body = _
    rw [ih, PaymentManager.selectPaymentMethod_body]

theorem selectAll_pendingWaits (is : List Nat) (w : World) :
    (selectAll is w).pendingWaits = w.pendingWaits := by
  induction is generalizing w with
  | nil => rfl
  | cons i is ih =>
    show (selectAll is (PaymentManager.selectPaymentMethod i w)).pendingWaits = _
    rw [ih, PaymentManager.selectPaymentMethod_pendingWaits]

/-- C2: after a non-empty sequence of `selectPaymentMethod` calls, each on an option of
`Elements.paymentOptions`, the one option that carries the `active` class is the option of
the last call, and `AppState.selectedPaymentMethod` is the method id of that option (the
id it had from the start). -/
theorem selectAll_sole_active (w : World) (is : List Nat) (hne : is ≠ [])
    (hmem : ∀ i ∈ is, i < w.paymentOptions.length) :
    activeIndices (selectAll is w) = [is.getLast hne] ∧
    (selectAll is w).selectedPaymentMethod.isSome = true ∧
    (selectAll is w).selectedPaymentMethod =
      ((selectAll is w).paymentOptions[is.getLast hne]?).map PaymentOption.method ∧
    (selectAll is w).selectedPaymentMethod =
      (w.paymentOptions[is.getLast hne]?).map PaymentOption.method := by
  have hlast : is.getLast hne < (selectAll is.dropLast w).paymentOptions.length := by
    rw [selectAll_length]
    exact hmem _ (List.getLast_mem hne)
  have hsplit : selectAll is w =
      PaymentManager.selectPaymentMethod (is.getLast hne) (selectAll is.dropLast w) := by
    rw [← selectAll_concat, List.dropLast_append_getLast hne]
  have hsel := PaymentManager.selectPaymentMethod_selected _ _ hlast
  refine ⟨?_, ?_, ?_, ?_⟩
  · rw [hsplit]
    exact PaymentManager.selectPaymentMethod_active _ _ hlast
  · rw [hsplit]
    exact hsel.2
  · rw [hsplit]
    exact hsel.1
  · rw [← selectAll_method_at is, hsplit]
    exact hsel.1

/-- Witness for C2: select the second option, then the first, on the sample page. -/
theorem selectAll_sole_active_witness :
    ([1, 0] : List Nat) ≠ [] ∧ (∀ i ∈ ([1, 0] : List Nat), i < sampleStart.paymentOptions.length) ∧
    activeIndices (selectAll [1, 0] sampleStart) = [0] ∧
    (selectAll [1, 0] sampleStart).selectedPaymentMethod = some "mpesa" := by
  have h := selectAll_sole_active sampleStart [1, 0] (by decide) (by decide)
  exact ⟨by decide, by decide, h.1, h.2.2.2⟩

/-! ### Notifications and the body -/

theorem showNotification_children (message type : String) (b : DocBody) (hb : b.WellFormed) :
    (Utils.showNotification message type b).children =
      b.children ++ [{ id := b.nextId, kind := .notice message type }] := by
  have hfresh : ({ id := b.nextId, kind := .notice message type } : DomNode) ∉ b.children := by
    intro hmem
    exact Nat.lt_irrefl _ (hb _ hmem)
  simp [Utils.showNotification, createElement, appendChild, List.erase_of_not_mem hfresh]

theorem showNotification_notices (message type : String) (b : DocBody) (hb : b.WellFormed) :
    notices (Utils.showNotification message type b) = notices b ++ [(message, type)] := by
  unfold notices
  rw [showNotification_children message type b hb]
  simp [List.filterMap_append]

theorem showNotification_wellFormed (message type : String) (b : DocBody) (hb : b.WellFormed) :
    (Utils.showNotification message type b).WellFormed := by
  intro n hn
  rw [showNotification_children message type b hb] at hn
  have hnext : (Utils.showNotification message type b).nextId = b.nextId + 1 := by
    simp [Utils.showNotification, createElement, appendChild]
  rw [hnext]
  rcases List.mem_append.mp hn with h | h
  · exact Nat.lt_succ_of_lt (hb n h)
  · simp at h
    subst h
    exact Nat.lt_succ_self _

theorem showNotification_overflow (message type : String) (b : DocBody) :
    (Utils.showNotification message type b).overflow = b.overflow := by
  simp [Utils.showNotification, createElement, appendChild]

/-! ### Confirmation -/

/-- C3: with no method selected, `processConfirmation` only shows the notification that asks
for a selection: `selectedPaymentMethod`, `isProcessing`, the confirm control, the modal and
the number of pending waits are as before, and the notifications on the page are the
earlier ones plus exactly one error. -/
theorem processConfirmation_without_selection (w : World)
    (hsel : w.selectedPaymentMethod = none) (hb : w.body.WellFormed) :
    ConfirmationManager.processConfirmation w =
      { w with body :=
          Utils.showNotification ConfirmationManager.noSelectionMessage "error" w.body } ∧
    (ConfirmationManager.processConfirmation w).selectedPaymentMethod = none ∧
    (ConfirmationManager.processConfirmation w).isProcessing = w.isProcessing ∧
    (ConfirmationManager.processConfirmation w).confirmButton = w.confirmButton ∧
    (ConfirmationManager.processConfirmation w).modal = w.modal ∧
    (ConfirmationManager.processConfirmation w).body.overflow = w.body.overflow ∧
    (ConfirmationManager.processConfirmation w).pendingWaits = w.pendingWaits ∧
    notices (ConfirmationManager.processConfirmation w).body =
      notices w.body ++ [(ConfirmationManager.noSelectionMessage, "error")] := by
  have h : ConfirmationManager.processConfirmation w =
      { w with body :=
          Utils.showNotification ConfirmationManager.noSelectionMessage "error" w.body } := by
    simp [ConfirmationManager.processConfirmation, Utils.validatePaymentSelection, hsel]
  rw [h]
  refine ⟨rfl, hsel, rfl, rfl, rfl, showNotification_overflow _ _ _, rfl, ?_⟩
  exact showNotification_notices _ _ _ hb

/-- Witness for C3: a confirm request right after start on the sample page. -/
theorem processConfirmation_without_selection_witness :
    sampleStart.selectedPaymentMethod = none ∧ sampleStart.body.WellFormed ∧
    (ConfirmationManager.processConfirmation sampleStart).isProcessing = false ∧
    (ConfirmationManager.processConfirmation sampleStart).modal.display = "none" ∧
    notices (ConfirmationManager.processConfirmation sampleStart).body =
      [(ConfirmationManager.noSelectionMessage, "error")] := by
  have hb : sampleStart.body.WellFormed := by
    intro n hn
    simp [sampleStart] at hn
  have h := processConfirmation_without_selection sampleStart rfl hb
  refine ⟨rfl, hb, ?_, ?_, ?_⟩
  · rw [h.2.2.1]; rfl
  · rw [h.2.2.2.2.1]; rfl
  · rw [h.2.2.2.2.2.2.2]; rfl

/-- C6: from any state, `ModalManager.hide` leaves the modal hidden, the background scroll
restored, `isProcessing` false and `selectedPaymentMethod` unchanged, and the confirm
control as the table gives it: enabled with the confirm label when a method is selected,
disabled with the select label otherwise. -/
theorem hide_resets (w : World) :
    (ModalManager.hide w).modal.display = "none" ∧
    (ModalManager.hide w).body.overflow = "auto" ∧
    (ModalManager.hide w).isProcessing = false ∧
    (ModalManager.hide w).selectedPaymentMethod = w.selectedPaymentMethod ∧
    ((ModalManager.hide w).confirmButton.disabled,
      (ModalManager.hide w).confirmButton.innerHTML) =
      ((confirmControlTable (ModalManager.hide w).selectedPaymentMethod.isSome
          (ModalManager.hide w).isProcessing).1,
        (confirmControlTable (ModalManager.hide w).selectedPaymentMethod.isSome
          (ModalManager.hide w).isProcessing).2.html) ∧
    ((ModalManager.hide w).confirmButton.disabled,
      (ModalManager.hide w).confirmButton.innerHTML) =
      (if w.selectedPaymentMethod.isSome then (false, Utils.confirmHTML)
       else (true, Utils.selectMethodHTML)) := by
  refine ⟨?_, ?_, ?_, ?_, ?_, ?_⟩
  · simp [ModalManager.hide, Utils.updateConfirmButton_modal]
  · simp [ModalManager.hide, Utils.updateConfirmButton_body]
  · simp [ModalManager.hide, Utils.updateConfirmButton_isProcessing]
  · simp [ModalManager.hide, Utils.updateConfirmButton_selected]
  · unfold ModalManager.hide
    rw [Utils.updateConfirmButton_disabled, Utils.updateConfirmButton_innerHTML,
      Utils.updateConfirmButton_selected, Utils.updateConfirmButton_isProcessing]
  · unfold ModalManager.hide
    rw [Utils.updateConfirmButton_disabled, Utils.updateConfirmButton_innerHTML]
    cases w.selectedPaymentMethod <;> simp [confirmControlTable, ControlLabel.html]

/-! ### The confirm control invariant -/

theorem controlInv_update (w : World) : ControlInv (Utils.updateConfirmButton w) := by
  unfold ControlInv
  rw [Utils.updateConfirmButton_disabled, Utils.updateConfirmButton_selected,
    Utils.updateConfirmButton_isProcessing]
  cases w.selectedPaymentMethod.isSome <;> cases w.isProcessing <;>
    simp [confirmControlTable]

theorem controlInv_select (i : Nat) (w : World) (h : ControlInv w) :
    ControlInv (PaymentManager.selectPaymentMethod i w) := by
  rcases Nat.lt_or_ge i w.paymentOptions.length with hi | hi
  · obtain ⟨el, _, he⟩ := PaymentManager.selectPaymentMethod_of_lt i w hi
    rw [he]
    exact controlInv_update _
  · rw [PaymentManager.selectPaymentMethod_of_ge i w hi]
    exact h

theorem controlInv_processConfirmation (w : World) (h : ControlInv w) :
    ControlInv (ConfirmationManager.processConfirmation w) := by
  unfold ConfirmationManager.processConfirmation
  split_ifs
  · exact h
  · exact controlInv_update { w with isProcessing := true }

theorem controlInv_show (w : World) (h : ControlInv w) : ControlInv (ModalManager.show w) := h

theorem controlInv_resume (o : GuardedOutcome) (w : World) (h : ControlInv w) :
    ControlInv (ConfirmationManager.processConfirmationResume o w) := by
  cases o
  · exact h
  · exact controlInv_update _
  · exact controlInv_update _

theorem controlInv_step (e : Event) (w : World) (h : ControlInv w) : ControlInv (step e w) := by
  cases e with
  | selectPaymentMethod i => exact controlInv_select i w h
  | processConfirmation => exact controlInv_processConfirmation w h
  | clickConfirm => exact controlInv_processConfirmation w h
  | waitSettles o =>
    show ControlInv (if w.pendingWaits = 0 then w
      else ConfirmationManager.processConfirmationResume o w)
    split_ifs
    · exact h
    · exact controlInv_resume o w h
  | hide => exact controlInv_update _

theorem controlInv_run (evs : List Event) (w : World) (h : ControlInv w) :
    ControlInv (run evs w) := by
  induction evs generalizing w with
  | nil => exact h
  | cons e evs ih => exact ih (step e w) (controlInv_step e w h)

theorem start_ok_cases (doc : Document) (w : World) (h : App.start doc = .ok w) :
    ∃ button modal extra,
      w = { Utils.updateConfirmButton
              { selectedPaymentMethod := none, isProcessing := false,
                paymentOptions := doc.paymentOptions, confirmButton := button,
                modal := modal, body := doc.body, pendingWaits := 0 } with body := extra } := by
  unfold App.start at h
  split at h
  · rename_i button modal _ _
    split_ifs at h
    · injection h with h
      exact ⟨button, modal, _, h.symm⟩
    · injection h with h
      exact ⟨button, modal, _, by rw [← h]⟩
  · cases h

theorem controlInv_start (doc : Document) (w : World) (h : App.start doc = .ok w) :
    ControlInv w := by
  obtain ⟨button, modal, extra, hw⟩ := start_ok_cases doc w h
  rw [hw]
  exact controlInv_update _

/-- C8 (counterexample): `App.start` on the sample document without its modal raises at
the check of the essential elements and never reaches `Utils.updateConfirmButton`: right
after it the confirm control is still enabled, as in the markup, with no method selected.
The same holds when an option has no header. -/
theorem start_aborted_control_counterexample :
    App.start sampleDocumentNoModal = .error (App.abort sampleDocumentNoModal 0) ∧
    (App.abort sampleDocumentNoModal 0).confirmButton = some sampleMarkupButton ∧
    ¬ (sampleMarkupButton.disabled = false ↔
      ((App.abort sampleDocumentNoModal 0).selectedPaymentMethod.isSome = true ∧
        (App.abort sampleDocumentNoModal 0).isProcessing = false)) ∧
    App.start sampleDocumentNoHeader = .error (App.abort sampleDocumentNoHeader 1) ∧
    (App.abort sampleDocumentNoHeader 1).confirmButton = some sampleMarkupButton ∧
    (App.abort sampleDocumentNoHeader 1).selectedPaymentMethod = none := by
  refine ⟨rfl, rfl, ?_, rfl, rfl, rfl⟩
  decide

/-- C8 (amended): in every state reachable after an `App.start` that initialised the
managers and the confirm control (the essential elements exist and every option has a
header), through `selectPaymentMethod`, `processConfirmation` (called directly or by the
click listener, with its wait settling either way) and `ModalManager.hide` in any order,
the confirm control is enabled if and only if a method is selected and `isProcessing` is
false. -/
theorem reachable_control_enabled_iff (doc : Document) (w : World) (h : Reachable doc w) :
    w.confirmButton.disabled = false ↔
      (w.selectedPaymentMethod.isSome = true ∧ w.isProcessing = false) := by
  obtain ⟨w0, evs, hstart, hw⟩ := h
  rw [hw]
  exact controlInv_run evs w0 (controlInv_start doc w0 hstart)

theorem sampleDocument_start : App.start sampleDocument = .ok sampleStart := by
  rfl

/-- Witness for C8: the sample page right after confirming the first option. -/
theorem reachable_control_enabled_iff_witness :
    Reachable sampleDocument sampleProcessing ∧
    (sampleProcessing.confirmButton.disabled = false ↔
      (sampleProcessing.selectedPaymentMethod.isSome = true ∧
        sampleProcessing.isProcessing = false)) :=
  have hr : Reachable sampleDocument sampleProcessing :=
    ⟨sampleStart, [.selectPaymentMethod 0, .clickConfirm], sampleDocument_start, rfl⟩
  ⟨hr, reachable_control_enabled_iff sampleDocument sampleProcessing hr⟩

/-! ### Re-entrancy -/

theorem processConfirmation_of_selected (w : World)
    (hsel : w.selectedPaymentMethod.isSome = true) :
    ConfirmationManager.processConfirmation w =
      { Utils.updateConfirmButton { w with isProcessing := true } with
        pendingWaits := w.pendingWaits + 1 } := by
  unfold ConfirmationManager.processConfirmation
  simp [Utils.validatePaymentSelection, hsel, Utils.updateConfirmButton_pendingWaits]

theorem resume_pendingWaits (o : GuardedOutcome) (w : World) :
    (ConfirmationManager.processConfirmationResume o w).pendingWaits = w.pendingWaits - 1 := by
  cases o <;>
    simp [ConfirmationManager.processConfirmationResume, ConfirmationManager.catchBlock,
      ModalManager.show, Utils.updateConfirmButton_pendingWaits]

theorem hide_pendingWaits (w : World) :
    (ModalManager.hide w).pendingWaits = w.pendingWaits := by
  simp [ModalManager.hide, Utils.updateConfirmButton_pendingWaits]

theorem processingInv_update (w : World)
    (h : w.isProcessing = true → w.selectedPaymentMethod.isSome = true) :
    ProcessingInv (Utils.updateConfirmButton w) := by
  intro hp
  rw [Utils.updateConfirmButton_isProcessing] at hp
  rw [Utils.updateConfirmButton_selected, Utils.updateConfirmButton_disabled,
    Utils.updateConfirmButton_innerHTML, hp, h hp]
  simp [confirmControlTable, ControlLabel.html]

theorem processingInv_select (i : Nat) (w : World) (h : ProcessingInv w) :
    ProcessingInv (PaymentManager.selectPaymentMethod i w) := by
  rcases Nat.lt_or_ge i w.paymentOptions.length with hi | hi
  · obtain ⟨el, _, he⟩ := PaymentManager.selectPaymentMethod_of_lt i w hi
    rw [he]
    exact processingInv_update _ (fun _ => rfl)
  · rw [PaymentManager.selectPaymentMethod_of_ge i w hi]
    exact h

theorem processingInv_processConfirmation (w : World) (h : ProcessingInv w) :
    ProcessingInv (ConfirmationManager.processConfirmation w) := by
  cases hsel : w.selectedPaymentMethod.isSome
  · have hw : ConfirmationManager.processConfirmation w =
        { w with body :=
            Utils.showNotification ConfirmationManager.noSelectionMessage "error" w.body } := by
      simp [ConfirmationManager.processConfirmation, Utils.validatePaymentSelection, hsel]
    rw [hw]
    exact h
  · rw [processConfirmation_of_selected w hsel]
    exact processingInv_update { w with isProcessing := true } (fun _ => hsel)

theorem processingInv_resume (o : GuardedOutcome) (w : World) (h : ProcessingInv w) :
    ProcessingInv (ConfirmationManager.processConfirmationResume o w) := by
  cases o with
  | completed => exact h
  | waitRejected =>
    exact processingInv_update _ (fun hp => Bool.noConfusion hp)
  | trackingThrew =>
    exact processingInv_update _ (fun hp => Bool.noConfusion hp)

theorem processingInv_step (e : Event) (w : World) (h : ProcessingInv w) :
    ProcessingInv (step e w) := by
  cases e with
  | selectPaymentMethod i => exact processingInv_select i w h
  | processConfirmation => exact processingInv_processConfirmation w h
  | clickConfirm => exact processingInv_processConfirmation w h
  | waitSettles o =>
    show ProcessingInv (if w.pendingWaits = 0 then w
      else ConfirmationManager.processConfirmationResume o w)
    split_ifs
    · exact h
    · exact processingInv_resume o w h
  | hide => exact processingInv_update _ (fun hp => Bool.noConfusion hp)

theorem processingInv_run (evs : List Event) (w : World) (h : ProcessingInv w) :
    ProcessingInv (run evs w) := by
  induction evs generalizing w with
  | nil => exact h
  | cons e evs ih => exact ih (step e w) (processingInv_step e w h)

theorem processingInv_start (doc : Document) (w : World) (h : App.start doc = .ok w) :
    ProcessingInv w := by
  obtain ⟨button, modal, extra, hw⟩ := start_ok_cases doc w h
  rw [hw]
  exact processingInv_update _ (fun hp => Bool.noConfusion hp)

theorem processConfirmation_of_showing (w : World)
    (hsel : w.selectedPaymentMethod.isSome = true) (hp : w.isProcessing = true)
    (hd : w.confirmButton.disabled = true)
    (hl : w.confirmButton.innerHTML = Utils.processingHTML) :
    ConfirmationManager.processConfirmation w =
      { w with pendingWaits := w.pendingWaits + 1 } := by
  rw [processConfirmation_of_selected w hsel]
  obtain ⟨sel, proc, opts, ⟨d, html, bg⟩, modal, body, pw⟩ := w
  simp only at hsel hp hd hl
  subst hp hd hl
  simp [Utils.updateConfirmButton, Utils.validatePaymentSelection]

/-- C4 (counterexample): on the sample page, with the first option selected and one
confirmation waiting (`isProcessing` true), `processConfirmation` called again starts a
second wait.  Two waits are also pending after a select, a click on the confirm control,
`hide` during the wait and a second click, where no call is made while `isProcessing` is
true. -/
theorem processConfirmation_reentrant_counterexample :
    sampleProcessing.isProcessing = true ∧ sampleProcessing.pendingWaits = 1 ∧
    (ConfirmationManager.processConfirmation sampleProcessing).pendingWaits = 2 ∧
    ConfirmationManager.processConfirmation sampleProcessing ≠ sampleProcessing ∧
    (run [.selectPaymentMethod 0, .clickConfirm, .hide, .clickConfirm]
      sampleStart).pendingWaits = 2 := by
  refine ⟨rfl, rfl, rfl, ?_, rfl⟩
  intro h
  have h2 := congrArg World.pendingWaits h
  revert h2
  decide

/-- C4 (amended): a confirm request made while `isProcessing` is true is not a no-op.
With a method selected, `processConfirmation`, called directly or by the click listener,
leaves `selectedPaymentMethod`, `isProcessing`, the options, the modal and the body as
they are, writes the disabled processing state to the confirm control and starts one more
wait.  In every state reachable after an `App.start` that initialised the page in which
`isProcessing` is true, a method is selected and the control already is disabled with the
processing label, so that the call changes nothing but the number of pending waits. -/
theorem processConfirmation_while_processing (w : World) (hp : w.isProcessing = true) :
    (w.selectedPaymentMethod.isSome = true →
      ConfirmationManager.processConfirmation w =
        { w with
          confirmButton :=
            { w.confirmButton with disabled := true, innerHTML := Utils.processingHTML },
          pendingWaits := w.pendingWaits + 1 } ∧
      step .clickConfirm w = ConfirmationManager.processConfirmation w) ∧
    (∀ doc, Reachable doc w →
      w.selectedPaymentMethod.isSome = true ∧
      w.confirmButton.disabled = true ∧
      w.confirmButton.innerHTML = Utils.processingHTML ∧
      ConfirmationManager.processConfirmation w =
        { w with pendingWaits := w.pendingWaits + 1 } ∧
      step .clickConfirm w = { w with pendingWaits := w.pendingWaits + 1 }) := by
  constructor
  · intro hsel
    refine ⟨?_, rfl⟩
    rw [processConfirmation_of_selected w hsel]
    obtain ⟨sel, proc, opts, ⟨d, html, bg⟩, modal, body, pw⟩ := w
    simp only at hsel hp
    subst hp
    simp [Utils.updateConfirmButton, Utils.validatePaymentSelection]
  · intro doc h
    obtain ⟨w0, evs, hstart, hw⟩ := h
    have hinv : ProcessingInv w := by
      rw [hw]
      exact processingInv_run evs w0 (processingInv_start doc w0 hstart)
    obtain ⟨hsel, hd, hl⟩ := hinv hp
    have hcall := processConfirmation_of_showing w hsel hp hd hl
    exact ⟨hsel, hd, hl, hcall, hcall⟩

/-- Witness for C4 (amended): the sample page after selecting and confirming. -/
theorem processConfirmation_while_processing_witness :
    sampleProcessing.isProcessing = true ∧
    Reachable sampleDocument sampleProcessing ∧
    sampleProcessing.confirmButton.disabled = true ∧
    ConfirmationManager.processConfirmation sampleProcessing =
      { sampleProcessing with pendingWaits := 2 } :=
  have hr : Reachable sampleDocument sampleProcessing :=
    ⟨sampleStart, [.selectPaymentMethod 0, .clickConfirm], sampleDocument_start, rfl⟩
  have h := (processConfirmation_while_processing sampleProcessing rfl).2 sampleDocument hr
  ⟨rfl, hr, h.2.1, h.2.2.2.1⟩

/-! ### Success and failure of the wait -/

theorem showsProcessing_update (w : World) (hp : w.isProcessing = true) :
    ShowsProcessing (Utils.updateConfirmButton w) := by
  unfold ShowsProcessing
  rw [Utils.updateConfirmButton_isProcessing, Utils.updateConfirmButton_disabled,
    Utils.updateConfirmButton_innerHTML, hp]
  cases w.selectedPaymentMethod.isSome <;> simp [confirmControlTable, ControlLabel.html]

theorem showsProcessing_select (i : Nat) (w : World) (h : ShowsProcessing w) :
    ShowsProcessing (PaymentManager.selectPaymentMethod i w) := by
  rcases Nat.lt_or_ge i w.paymentOptions.length with hi | hi
  · obtain ⟨el, _, he⟩ := PaymentManager.selectPaymentMethod_of_lt i w hi
    rw [he]
    exact showsProcessing_update _ h.1
  · rw [PaymentManager.selectPaymentMethod_of_ge i w hi]
    exact h

theorem showsProcessing_selectAll (is : List Nat) (w : World) (h : ShowsProcessing w) :
    ShowsProcessing (selectAll is w) := by
  induction is generalizing w with
  | nil => exact h
  | cons i is ih => exact ih _ (showsProcessing_select i w h)

theorem showsProcessing_processConfirmation (w : World)
    (hsel : w.selectedPaymentMethod.isSome = true) :
    ShowsProcessing (ConfirmationManager.processConfirmation w) := by
  rw [processConfirmation_of_selected w hsel]
  exact showsProcessing_update { w with isProcessing := true } rfl

theorem selectPaymentMethod_isSome (i : Nat) (w : World)
    (hsel : w.selectedPaymentMethod.isSome = true) :
    (PaymentManager.selectPaymentMethod i w).selectedPaymentMethod.isSome = true := by
  rcases Nat.lt_or_ge i w.paymentOptions.length with hi | hi
  · exact (PaymentManager.selectPaymentMethod_selected i w hi).2
  · rw [PaymentManager.selectPaymentMethod_of_ge i w hi]
    exact hsel

theorem selectAll_isSome (is : List Nat) (w : World)
    (hsel : w.selectedPaymentMethod.isSome = true) :
    (selectAll is w).selectedPaymentMethod.isSome = true := by
  induction is generalizing w with
  | nil => exact hsel
  | cons i is ih => exact ih _ (selectPaymentMethod_isSome i w hsel)

/-- C5 (counterexample): on the sample page with one confirmation waiting, the wait
resolves and the modal is shown, then the tracking call raises: the modal is visible and
`isProcessing` is false, the confirm control enabled. -/
theorem resume_tracking_threw_counterexample :
    sampleProcessing.selectedPaymentMethod = some "mpesa" ∧
    (step (.waitSettles .trackingThrew) sampleProcessing).modal.display = "block" ∧
    (step (.waitSettles .trackingThrew) sampleProcessing).isProcessing = false ∧
    (step (.waitSettles .trackingThrew) sampleProcessing).confirmButton.disabled = false := by
  refine ⟨rfl, rfl, rfl, rfl⟩

/-- C5 (amended): when `processConfirmation` runs with a method selected, the wait resolves
and neither `ModalManager.show` nor the tracking call after it raises, the modal is visible
afterward and `isProcessing` is still true, and the confirm control is disabled with the
processing label; this stays so under `selectPaymentMethod` calls made during the wait and
after it, as long as `ModalManager.hide` is not called. -/
theorem completed_keeps_processing (w : World) (during after : List Nat)
    (hsel : w.selectedPaymentMethod.isSome = true) :
    (selectAll after (ConfirmationManager.processConfirmationResume .completed
      (selectAll during (ConfirmationManager.processConfirmation w)))).modal.display = "block" ∧
    ShowsProcessing (selectAll after (ConfirmationManager.processConfirmationResume .completed
      (selectAll during (ConfirmationManager.processConfirmation w)))) := by
  have h1 := showsProcessing_selectAll during _ (showsProcessing_processConfirmation w hsel)
  constructor
  · rw [selectAll_modal]
    rfl
  · apply showsProcessing_selectAll
    exact h1

/-- Witness for C5 (amended): confirm the first option of the sample page, select the
second one during the wait and the first one again once the modal is open. -/
theorem completed_keeps_processing_witness :
    (PaymentManager.selectPaymentMethod 0 sampleStart).selectedPaymentMethod.isSome = true ∧
    (selectAll [0] (ConfirmationManager.processConfirmationResume .completed
      (selectAll [1] (ConfirmationManager.processConfirmation
        (PaymentManager.selectPaymentMethod 0 sampleStart))))).modal.display = "block" ∧
    ShowsProcessing (selectAll [0] (ConfirmationManager.processConfirmationResume .completed
      (selectAll [1] (ConfirmationManager.processConfirmation
        (PaymentManager.selectPaymentMethod 0 sampleStart))))) :=
  ⟨rfl, completed_keeps_processing (PaymentManager.selectPaymentMethod 0 sampleStart) [1] [0] rfl⟩

theorem wellFormed_overflow (b : DocBody) (o : String) (hb : b.WellFormed) :
    DocBody.WellFormed { b with overflow := o } := hb

theorem isSome_processConfirmation (w : World)
    (hsel : w.selectedPaymentMethod.isSome = true) :
    (ConfirmationManager.processConfirmation w).selectedPaymentMethod.isSome = true := by
  rw [processConfirmation_of_selected w hsel]
  simpa [Utils.updateConfirmButton_selected] using hsel

theorem wellFormed_processConfirmation (w : World) (hb : w.body.WellFormed) :
    (ConfirmationManager.processConfirmation w).body.WellFormed := by
  unfold ConfirmationManager.processConfirmation
  split_ifs
  · exact showNotification_wellFormed _ _ _ hb
  · show (Utils.updateConfirmButton { w with isProcessing := true }).body.WellFormed
    rw [Utils.updateConfirmButton_body]
    exact hb

theorem isSome_resume (o : GuardedOutcome) (w : World)
    (hsel : w.selectedPaymentMethod.isSome = true) :
    (ConfirmationManager.processConfirmationResume o w).selectedPaymentMethod.isSome = true := by
  cases o <;>
    simpa [ConfirmationManager.processConfirmationResume, ConfirmationManager.catchBlock,
      ModalManager.show, Utils.updateConfirmButton_selected] using hsel

theorem wellFormed_resume (o : GuardedOutcome) (w : World) (hb : w.body.WellFormed) :
    (ConfirmationManager.processConfirmationResume o w).body.WellFormed := by
  cases o with
  | completed => exact hb
  | waitRejected =>
    show (ConfirmationManager.catchBlock _).body.WellFormed
    unfold ConfirmationManager.catchBlock
    rw [Utils.updateConfirmButton_body]
    exact showNotification_wellFormed _ _ _ hb
  | trackingThrew =>
    show (ConfirmationManager.catchBlock _).body.WellFormed
    unfold ConfirmationManager.catchBlock
    rw [Utils.updateConfirmButton_body]
    exact showNotification_wellFormed _ _ _ (wellFormed_overflow w.body "hidden" hb)

theorem isSome_step (e : Event) (w : World) (hsel : w.selectedPaymentMethod.isSome = true) :
    (step e w).selectedPaymentMethod.isSome = true := by
  cases e with
  | selectPaymentMethod i => exact selectPaymentMethod_isSome i w hsel
  | processConfirmation => exact isSome_processConfirmation w hsel
  | clickConfirm => exact isSome_processConfirmation w hsel
  | waitSettles o =>
    show (if w.pendingWaits = 0 then w
      else ConfirmationManager.processConfirmationResume o w).selectedPaymentMethod.isSome = true
    split_ifs
    · exact hsel
    · exact isSome_resume o w hsel
  | hide =>
    show (ModalManager.hide w).selectedPaymentMethod.isSome = true
    unfold ModalManager.hide
    rw [Utils.updateConfirmButton_selected]
    exact hsel

theorem wellFormed_step (e : Event) (w : World) (hb : w.body.WellFormed) :
    (step e w).body.WellFormed := by
  cases e with
  | selectPaymentMethod i =>
    show (PaymentManager.selectPaymentMethod i w).body.WellFormed
    rw [PaymentManager.selectPaymentMethod_body]
    exact hb
  | processConfirmation => exact wellFormed_processConfirmation w hb
  | clickConfirm => exact wellFormed_processConfirmation w hb
  | waitSettles o =>
    show (if w.pendingWaits = 0 then w
      else ConfirmationManager.processConfirmationResume o w).body.WellFormed
    split_ifs
    · exact hb
    · exact wellFormed_resume o w hb
  | hide =>
    show (ModalManager.hide w).body.WellFormed
    unfold ModalManager.hide
    rw [Utils.updateConfirmButton_body]
    exact wellFormed_overflow w.body "auto" hb

theorem isSome_run (evs : List Event) (w : World)
    (hsel : w.selectedPaymentMethod.isSome = true) :
    (run evs w).selectedPaymentMethod.isSome = true := by
  induction evs generalizing w with
  | nil => exact hsel
  | cons e evs ih => exact ih (step e w) (isSome_step e w hsel)

theorem wellFormed_run (evs : List Event) (w : World) (hb : w.body.WellFormed) :
    (run evs w).body.WellFormed := by
  induction evs generalizing w with
  | nil => exact hb
  | cons e evs ih => exact ih (step e w) (wellFormed_step e w hb)

theorem wellFormed_start (doc : Document) (w : World) (hb : doc.body.WellFormed)
    (h : App.start doc = .ok w) : w.body.WellFormed := by
  unfold App.start at h
  split at h
  · split_ifs at h
    · injection h with h
      subst h
      show (Utils.showNotification _ _ (Utils.updateConfirmButton _).body).WellFormed
      rw [Utils.updateConfirmButton_body]
      exact showNotification_wellFormed _ _ _ hb
    · injection h with h
      subst h
      rw [Utils.updateConfirmButton_body]
      exact hb
  · cases h

theorem catchBlock_effect (v : World) (hsel : v.selectedPaymentMethod.isSome = true) :
    (ConfirmationManager.catchBlock v).isProcessing = false ∧
    (ConfirmationManager.catchBlock v).confirmButton.disabled = false ∧
    (ConfirmationManager.catchBlock v).confirmButton.innerHTML = Utils.confirmHTML ∧
    (ConfirmationManager.catchBlock v).body =
      Utils.showNotification ConfirmationManager.failureMessage "error" v.body := by
  unfold ConfirmationManager.catchBlock
  rw [Utils.updateConfirmButton_isProcessing, Utils.updateConfirmButton_disabled,
    Utils.updateConfirmButton_innerHTML, Utils.updateConfirmButton_body]
  simp [hsel, confirmControlTable, ControlLabel.html]

/-- C7: when `processConfirmation` runs with a method selected and the guarded block
raises (the wait rejects, or a step after it raises), then on return, whatever callbacks
ran during the wait and without `hide` having to be called, `isProcessing` is false, the
confirm control is enabled with the confirm label, and one error notification has been
added to those on the page. -/
theorem failure_resets_processing (w : World) (during : List Event) (o : GuardedOutcome)
    (hsel : w.selectedPaymentMethod.isSome = true) (ho : o ≠ .completed)
    (hb : w.body.WellFormed) :
    (ConfirmationManager.processConfirmationResume o
      (run during (ConfirmationManager.processConfirmation w))).isProcessing = false ∧
    (ConfirmationManager.processConfirmationResume o
      (run during (ConfirmationManager.processConfirmation w))).confirmButton.disabled
        = false ∧
    (ConfirmationManager.processConfirmationResume o
      (run during (ConfirmationManager.processConfirmation w))).confirmButton.innerHTML
        = Utils.confirmHTML ∧
    notices (ConfirmationManager.processConfirmationResume o
      (run during (ConfirmationManager.processConfirmation w))).body =
      notices (run during (ConfirmationManager.processConfirmation w)).body ++
        [(ConfirmationManager.failureMessage, "error")] := by
  have hsel2 := isSome_run during _ (isSome_processConfirmation w hsel)
  have hb2 := wellFormed_run during _ (wellFormed_processConfirmation w hb)
  generalize run during (ConfirmationManager.processConfirmation w) = v at hsel2 hb2
  cases o with
  | completed => exact absurd rfl ho
  | waitRejected =>
    obtain ⟨h1, h2, h3, h4⟩ :=
      catchBlock_effect { v with pendingWaits := v.pendingWaits - 1 } hsel2
    refine ⟨h1, h2, h3, ?_⟩
    show notices (ConfirmationManager.catchBlock
      { v with pendingWaits := v.pendingWaits - 1 }).body = _
    rw [h4]
    exact showNotification_notices _ _ _ hb2
  | trackingThrew =>
    obtain ⟨h1, h2, h3, h4⟩ := catchBlock_effect
      (ModalManager.show { v with pendingWaits := v.pendingWaits - 1 }) hsel2
    refine ⟨h1, h2, h3, ?_⟩
    show notices (ConfirmationManager.catchBlock
      (ModalManager.show { v with pendingWaits := v.pendingWaits - 1 })).body = _
    rw [h4]
    exact showNotification_notices _ _ { v.body with overflow := "hidden" } hb2

theorem sampleStart_body_wellFormed : sampleStart.body.WellFormed := by
  intro n hn
  simp [sampleStart] at hn

/-- Witness for C7: confirm the first option of the sample page, select the second one
during the wait, and the wait rejects. -/
theorem failure_resets_processing_witness :
    (PaymentManager.selectPaymentMethod 0 sampleStart).selectedPaymentMethod.isSome = true ∧
    GuardedOutcome.waitRejected ≠ GuardedOutcome.completed ∧
    (PaymentManager.selectPaymentMethod 0 sampleStart).body.WellFormed ∧
    (ConfirmationManager.processConfirmationResume .waitRejected
      (run [.selectPaymentMethod 1] (ConfirmationManager.processConfirmation
        (PaymentManager.selectPaymentMethod 0 sampleStart)))).isProcessing = false ∧
    (ConfirmationManager.processConfirmationResume .waitRejected
      (run [.selectPaymentMethod 1] (ConfirmationManager.processConfirmation
        (PaymentManager.selectPaymentMethod 0 sampleStart)))).confirmButton.disabled = false ∧
    notices (ConfirmationManager.processConfirmationResume .waitRejected
      (run [.selectPaymentMethod 1] (ConfirmationManager.processConfirmation
        (PaymentManager.selectPaymentMethod 0 sampleStart)))).body =
      [(ConfirmationManager.failureMessage, "error")] :=
  have hb : (PaymentManager.selectPaymentMethod 0 sampleStart).body.WellFormed :=
    sampleStart_body_wellFormed
  have h := failure_resets_processing (PaymentManager.selectPaymentMethod 0 sampleStart)
    [.selectPaymentMethod 1] .waitRejected rfl (by decide) hb
  ⟨rfl, by decide, hb, h.1, h.2.1, h.2.2.2⟩

/-! ### Clipboard -/

theorem showCopySuccess_body (p q : Page) (h : Utils.showCopySuccess p = .ok q) :
    q.body = p.body ∧ q.calls = p.calls := by
  unfold Utils.showCopySuccess at h
  split at h
  · cases h
  · split at h
    · cases h
    · injection h with h
      subst h
      exact ⟨rfl, rfl⟩

theorem fallbackCopy_children (pf : Platform) (text : String) (p : Page)
    (hb : p.body.WellFormed) :
    (Utils.fallbackCopy pf text p).1.body.children = p.body.children ∨
    (Utils.fallbackCopy pf text p).1.body.children = p.body.children ++
      [{ id := p.body.nextId + 1, kind := .notice Utils.copyErrorMessage "error" }] := by
  have hfresh : ({ id := p.body.nextId, kind := .textarea text } : DomNode) ∉ p.body.children := by
    intro hmem
    exact Nat.lt_irrefl _ (hb _ hmem)
  have happ : (appendChild (createElement p.body (.textarea text)).2
      (createElement p.body (.textarea text)).1).children =
      p.body.children ++ [{ id := p.body.nextId, kind := .textarea text }] := by
    simp [appendChild, createElement, List.erase_of_not_mem hfresh]
  have hwf : (appendChild (createElement p.body (.textarea text)).2
      (createElement p.body (.textarea text)).1).WellFormed := by
    intro n hn
    rw [happ] at hn
    show n.id < p.body.nextId + 1
    rcases List.mem_append.mp hn with h | h
    · exact Nat.lt_succ_of_lt (hb n h)
    · simp at h
      subst h
      exact Nat.lt_succ_self _
  have hfail : (removeChild (Utils.showNotification Utils.copyErrorMessage "error"
      (appendChild (createElement p.body (.textarea text)).2
        (createElement p.body (.textarea text)).1))
      (createElement p.body (.textarea text)).1).children = p.body.children ++
      [{ id := p.body.nextId + 1, kind := .notice Utils.copyErrorMessage "error" }] := by
    unfold removeChild
    rw [showNotification_children _ _ _ hwf, happ]
    show ((p.body.children ++ [({ id := p.body.nextId, kind := .textarea text } : DomNode)]) ++
      [({ id := p.body.nextId + 1, kind := .notice Utils.copyErrorMessage "error" } : DomNode)]).erase
        ({ id := p.body.nextId, kind := .textarea text } : DomNode) = _
    rw [List.append_assoc, List.erase_append_right _ hfresh]
    simp
  have hok : (removeChild (appendChild (createElement p.body (.textarea text)).2
        (createElement p.body (.textarea text)).1)
      (createElement p.body (.textarea text)).1).children = p.body.children := by
    unfold removeChild
    rw [happ]
    show (p.body.children ++ [({ id := p.body.nextId, kind := .textarea text } : DomNode)]).erase
        ({ id := p.body.nextId, kind := .textarea text } : DomNode) = _
    rw [List.erase_append_right _ hfresh]
    simp
  unfold Utils.fallbackCopy
  dsimp only
  cases hexec : pf.execCommand with
  | throws =>
    right
    exact hfail
  | returns ok =>
    dsimp only
    cases hs : Utils.showCopySuccess
        { body := appendChild (createElement p.body (.textarea text)).2
            (createElement p.body (.textarea text)).1,
          target := p.target, calls := p.calls ++ [.execCommandCopy text] } with
    | error e =>
      right
      exact hfail
    | ok q =>
      left
      dsimp only
      rw [(showCopySuccess_body _ q hs).1]
      exact hok

/-- C9: whatever the text and however the copy command and the success feedback end,
`Utils.fallbackCopy` returns with the temporary textarea it created no longer among the
children of the body, and with every earlier child still there. -/
theorem fallbackCopy_removes_textarea (pf : Platform) (text : String) (p : Page)
    (hb : p.body.WellFormed) :
    Utils.fallbackTextArea text p.body ∉ (Utils.fallbackCopy pf text p).1.body.children ∧
    (∀ n ∈ p.body.children, n ∈ (Utils.fallbackCopy pf text p).1.body.children) ∧
    (Utils.fallbackCopy pf text p).2 = .returned .undefined := by
  have hfresh : Utils.fallbackTextArea text p.body ∉ p.body.children := by
    intro hmem
    exact Nat.lt_irrefl _ (hb _ hmem)
  refine ⟨?_, ?_, rfl⟩
  · rcases fallbackCopy_children pf text p hb with h | h
    · rw [h]
      exact hfresh
    · rw [h]
      intro hmem
      rcases List.mem_append.mp hmem with h1 | h1
      · exact hfresh h1
      · simp [Utils.fallbackTextArea, createElement] at h1
  · intro n hn
    rcases fallbackCopy_children pf text p hb with h | h
    · rw [h]
      exact hn
    · rw [h]
      exact List.mem_append_left _ hn

theorem samplePage_body_wellFormed : samplePage.body.WellFormed := by
  intro n hn
  simp [samplePage] at hn
  subst hn
  decide

/-- Witness for C9: the copy command raises on the sample page. -/
theorem fallbackCopy_removes_textarea_witness :
    samplePage.body.WellFormed ∧
    Utils.fallbackTextArea "ACC-12345" samplePage.body ∉
      (Utils.fallbackCopy brokenPlatform "ACC-12345" samplePage).1.body.children :=
  ⟨samplePage_body_wellFormed,
    (fallbackCopy_removes_textarea brokenPlatform "ACC-12345" samplePage
      samplePage_body_wellFormed).1⟩

theorem fallbackCopy_calls (pf : Platform) (text : String) (p : Page) :
    (Utils.fallbackCopy pf text p).1.calls = p.calls ++ [.execCommandCopy text] := by
  unfold Utils.fallbackCopy
  dsimp only
  cases hexec : pf.execCommand with
  | throws => rfl
  | returns ok =>
    dsimp only
    cases hs : Utils.showCopySuccess
        { body := appendChild (createElement p.body (.textarea text)).2
            (createElement p.body (.textarea text)).1,
          target := p.target, calls := p.calls ++ [.execCommandCopy text] } with
    | error e => rfl
    | ok q =>
      dsimp only
      rw [(showCopySuccess_body _ q hs).2]

theorem fallbackCopy_success (pf : Platform) (text : String) (p : Page) (element : CopyTarget)
    (copyBtn : CopyButton) (ok : Bool) (ht : p.target = some element)
    (hbtn : element.copyBtn = some copyBtn) (hexec : pf.execCommand = .returns ok)
    (hb : p.body.WellFormed) :
    (Utils.fallbackCopy pf text p).1.successShown = true ∧
    (Utils.fallbackCopy pf text p).1.body.children = p.body.children := by
  have hfresh : ({ id := p.body.nextId, kind := .textarea text } : DomNode) ∉ p.body.children := by
    intro hmem
    exact Nat.lt_irrefl _ (hb _ hmem)
  unfold Utils.fallbackCopy
  simp [hexec, Utils.showCopySuccess, ht, hbtn, Page.successShown, removeChild, appendChild,
    createElement, List.erase_of_not_mem hfresh, List.erase_append_right _ hfresh]

/-- C10 (counterexample): on the sample page without the clipboard API, the call whose copy
command succeeds (the success feedback shows) and the call whose copy command raises (an
error notification is added) return the same value, `undefined`: no outcome is returned. -/
theorem copyToClipboard_returns_counterexample :
    (Utils.copyToClipboard legacyPlatform samplePage).1.successShown = true ∧
    (Utils.copyToClipboard legacyPlatform samplePage).2 = .returned .undefined ∧
    notices (Utils.copyToClipboard brokenPlatform samplePage).1.body =
      [(Utils.copyErrorMessage, "error")] ∧
    (Utils.copyToClipboard brokenPlatform samplePage).2 =
      (Utils.copyToClipboard legacyPlatform samplePage).2 := by
  refine ⟨rfl, rfl, rfl, rfl⟩

/-- C10 (amended): for every element to copy from, when the clipboard API is absent or the
context is not secure, `copyToClipboard` makes no clipboard write and runs the copy command
on a textarea holding the text of the element; when the clipboard write is available but
rejects, the copy command runs after the write attempt.  The call returns `undefined`
whatever the outcome: success is signalled on the page, where, if the copy command
returns true and the copy button exists, the success feedback shows on the fallback path
and the children of the body are as before (no error notification, no textarea). -/
theorem copyToClipboard_fallback (pf : Platform) (p : Page) (element : CopyTarget)
    (ht : p.target = some element) (hb : p.body.WellFormed) :
    ((pf.clipboard = none ∨ pf.isSecureContext = false) →
      (Utils.copyToClipboard pf p).1.calls =
        p.calls ++ [.execCommandCopy element.textContent]) ∧
    ((pf.clipboard = none ∨ pf.isSecureContext = false) →
      pf.execCommand = .returns true → element.copyBtn.isSome = true →
      (Utils.copyToClipboard pf p).1.successShown = true ∧
      (Utils.copyToClipboard pf p).1.body.children = p.body.children) ∧
    (pf.clipboard = some .rejects → pf.isSecureContext = true →
      (Utils.copyToClipboard pf p).1.calls =
        p.calls ++ [.writeText element.textContent, .execCommandCopy element.textContent]) ∧
    (Utils.copyToClipboard pf p).2 = .returned .undefined := by
  have hfall : (pf.clipboard = none ∨ pf.isSecureContext = false) →
      Utils.copyToClipboard pf p =
        ((Utils.fallbackCopy pf element.textContent p).1, .returned .undefined) := by
    intro h
    unfold Utils.copyToClipboard
    rw [ht]
    rcases h with h | h
    · simp [h]
    · cases hc : pf.clipboard <;> simp [h]
  refine ⟨?_, ?_, ?_, ?_⟩
  · intro h
    rw [hfall h]
    exact fallbackCopy_calls pf element.textContent p
  · intro h hexec hbtn
    obtain ⟨copyBtn, hcb⟩ := Option.isSome_iff_exists.mp hbtn
    rw [hfall h]
    exact fallbackCopy_success pf element.textContent p element copyBtn true ht hcb hexec hb
  · intro hc hs
    unfold Utils.copyToClipboard
    rw [ht]
    simp only [hc, hs]
    rw [fallbackCopy_calls]
    simp
  · unfold Utils.copyToClipboard
    rw [ht]
    dsimp only
    split
    · split
      · split <;> rfl
      · rfl
    · rfl

/-- Witness for C10 (amended): the sample page in a browser without the clipboard API. -/
theorem copyToClipboard_fallback_witness :
    samplePage.target = some sampleTarget ∧ samplePage.body.WellFormed ∧
    (Utils.copyToClipboard legacyPlatform samplePage).1.calls =
      [.execCommandCopy "ACC-12345"] ∧
    (Utils.copyToClipboard legacyPlatform samplePage).1.successShown = true ∧
    (Utils.copyToClipboard legacyPlatform samplePage).2 = .returned .undefined :=
  have h := copyToClipboard_fallback legacyPlatform samplePage sampleTarget rfl
    samplePage_body_wellFormed
  ⟨rfl, samplePage_body_wellFormed, h.1 (Or.inl rfl), (h.2.1 (Or.inl rfl) rfl rfl).1, h.2.2.2⟩

end Checkout
